import Mathlib

/-!
Verification development for the Boids GPGPU flocking simulation
(`src/main.ts`, `src/shaders/velocityFragment.glsl`,
`src/shaders/positionFragment.glsl`).

The GLSL compute kernels are shallowly embedded over exact real arithmetic:
`vec3` becomes the structure `V3` over `ℝ`, GLSL componentwise operators
become the corresponding `V3` operations, and the two fragment shaders become
the pure functions `velocityKernel` and `positionKernel` over an `AgentGrid`
(the double-buffered position/velocity textures, indexed by agent id).

The stride-based neighbour sampling arithmetic of the velocity shader is exact
in float (small integers and half-integers), so it is embedded separately over
`ℕ`/`ℚ` (`sampleIds`), which keeps it computable and decidable.
-/

namespace Boids

/-- GLSL `vec3`, with exact real components. -/
@[ext] structure V3 where
  x : ℝ
  y : ℝ
  z : ℝ

namespace V3

noncomputable instance : Zero V3 := ⟨⟨0, 0, 0⟩⟩

noncomputable instance : Add V3 := ⟨fun a b => ⟨a.x + b.x, a.y + b.y, a.z + b.z⟩⟩

noncomputable instance : Neg V3 := ⟨fun a => ⟨-a.x, -a.y, -a.z⟩⟩

noncomputable instance : Sub V3 := ⟨fun a b => ⟨a.x - b.x, a.y - b.y, a.z - b.z⟩⟩

/-- GLSL `vec3 * float` (componentwise). -/
noncomputable instance : HMul V3 ℝ V3 := ⟨fun a c => ⟨a.x * c, a.y * c, a.z * c⟩⟩

/-- GLSL `vec3 / float` (componentwise). -/
noncomputable instance : HDiv V3 ℝ V3 := ⟨fun a c => ⟨a.x / c, a.y / c, a.z / c⟩⟩

/-- GLSL `vec3 * vec3` (componentwise). -/
noncomputable instance : Mul V3 := ⟨fun a b => ⟨a.x * b.x, a.y * b.y, a.z * b.z⟩⟩

@[simp] theorem zero_x : (0 : V3).x = 0 := rfl

@[simp] theorem zero_y : (0 : V3).y = 0 := rfl

@[simp] theorem zero_z : (0 : V3).z = 0 := rfl

@[simp] theorem add_x (a b : V3) : (a + b).x = a.x + b.x := rfl

@[simp] theorem add_y (a b : V3) : (a + b).y = a.y + b.y := rfl

@[simp] theorem add_z (a b : V3) : (a + b).z = a.z + b.z := rfl

@[simp] theorem neg_x (a : V3) : (-a).x = -a.x := rfl

@[simp] theorem neg_y (a : V3) : (-a).y = -a.y := rfl

@[simp] theorem neg_z (a : V3) : (-a).z = -a.z := rfl

@[simp] theorem sub_x (a b : V3) : (a - b).x = a.x - b.x := rfl

@[simp] theorem sub_y (a b : V3) : (a - b).y = a.y - b.y := rfl

@[simp] theorem sub_z (a b : V3) : (a - b).z = a.z - b.z := rfl

@[simp] theorem smul_x (a : V3) (c : ℝ) : (a * c).x = a.x * c := rfl

@[simp] theorem smul_y (a : V3) (c : ℝ) : (a * c).y = a.y * c := rfl

@[simp] theorem smul_z (a : V3) (c : ℝ) : (a * c).z = a.z * c := rfl

@[simp] theorem sdiv_x (a : V3) (c : ℝ) : (a / c).x = a.x / c := rfl

@[simp] theorem sdiv_y (a : V3) (c : ℝ) : (a / c).y = a.y / c := rfl

@[simp] theorem sdiv_z (a : V3) (c : ℝ) : (a / c).z = a.z / c := rfl

@[simp] theorem mul_x (a b : V3) : (a * b).x = a.x * b.x := rfl

@[simp] theorem mul_y (a b : V3) : (a * b).y = a.y * b.y := rfl

@[simp] theorem mul_z (a b : V3) : (a * b).z = a.z * b.z := rfl

noncomputable instance : AddCommGroup V3 where
  add_assoc a b c := by ext <;> simp <;> ring
  zero_add a := by ext <;> simp
  add_zero a := by ext <;> simp
  add_comm a b := by ext <;> simp <;> ring
  neg_add_cancel a := by ext <;> simp
  sub_eq_add_neg a b := by ext <;> simp <;> ring
  nsmul := nsmulRec
  zsmul := zsmulRec

@[simp] theorem add_mk (p : V3) (a b c : ℝ) :
    p + V3.mk a b c = V3.mk (p.x + a) (p.y + b) (p.z + c) := rfl

@[simp] theorem sub_mk (p : V3) (a b c : ℝ) :
    p - V3.mk a b c = V3.mk (p.x - a) (p.y - b) (p.z - c) := rfl

@[simp] theorem mk_x (a b c : ℝ) : (V3.mk a b c).x = a := rfl

@[simp] theorem mk_y (a b c : ℝ) : (V3.mk a b c).y = b := rfl

@[simp] theorem mk_z (a b c : ℝ) : (V3.mk a b c).z = c := rfl

theorem smul_zero' (a : V3) : a * (0 : ℝ) = 0 := by ext <;> simp

theorem zero_smul' (c : ℝ) : (0 : V3) * c = 0 := by ext <;> simp

end V3

/-- GLSL `vec3(s)`: broadcast a scalar to all three components. -/
def vec3 (s : ℝ) : V3 := ⟨s, s, s⟩

/-- GLSL `dot` on `vec3`. -/
noncomputable def dot (a b : V3) : ℝ := a.x * b.x + a.y * b.y + a.z * b.z

/-- GLSL `length` on `vec3`: `sqrt (dot v v)`. -/
noncomputable def length (v : V3) : ℝ := Real.sqrt (dot v v)

/-- GLSL `normalize` on `vec3`: `v / length v`.  (On the zero vector GLSL is
undefined; in this real-valued embedding division by zero yields `0`.) -/
noncomputable def normalize (v : V3) : V3 := v / length v

/-- GLSL scalar `clamp(x, lo, hi)` = `min(max(x, lo), hi)`. -/
noncomputable def clampR (x lo hi : ℝ) : ℝ := min (max x lo) hi

/-- GLSL scalar `mix(a, b, t)` = `a * (1 - t) + b * t`. -/
noncomputable def mixR (a b t : ℝ) : ℝ := a * (1 - t) + b * t

/-- GLSL scalar `smoothstep(edge0, edge1, x)`. -/
noncomputable def smoothstep (edge0 edge1 x : ℝ) : ℝ :=
  let t := clampR ((x - edge0) / (edge1 - edge0)) 0 1
  t * t * (3 - 2 * t)

/-- GLSL scalar `fract(x)` = `x - floor x`. -/
noncomputable def fract (x : ℝ) : ℝ := x - (⌊x⌋ : ℝ)

theorem dot_self_nonneg (v : V3) : 0 ≤ dot v v := by
  have hx := mul_self_nonneg v.x
  have hy := mul_self_nonneg v.y
  have hz := mul_self_nonneg v.z
  simp only [dot]; linarith

theorem length_nonneg (v : V3) : 0 ≤ length v := Real.sqrt_nonneg _

@[simp] theorem length_zero : length (0 : V3) = 0 := by
  simp [length, dot]

theorem length_eq_zero_iff (v : V3) : length v = 0 ↔ v = 0 := by
  constructor
  · intro h
    have hle : dot v v ≤ 0 := Real.sqrt_eq_zero'.mp h
    have hx := mul_self_nonneg v.x
    have hy := mul_self_nonneg v.y
    have hz := mul_self_nonneg v.z
    simp only [dot] at hle
    have hx0 : v.x = 0 := by nlinarith
    have hy0 : v.y = 0 := by nlinarith
    have hz0 : v.z = 0 := by nlinarith
    ext <;> simp [hx0, hy0, hz0]
  · rintro rfl; exact length_zero

theorem length_mk_x (c : ℝ) : length ⟨c, 0, 0⟩ = |c| := by
  have h : dot ⟨c, 0, 0⟩ ⟨c, 0, 0⟩ = c ^ 2 := by simp [dot]; ring
  rw [length, h, Real.sqrt_sq_eq_abs]

theorem length_smul (v : V3) (c : ℝ) : length (v * c) = length v * |c| := by
  have h : dot (v * c) (v * c) = dot v v * c ^ 2 := by simp [dot]; ring
  rw [length, h, Real.sqrt_mul (dot_self_nonneg v), Real.sqrt_sq_eq_abs, length]

theorem length_sdiv (v : V3) (c : ℝ) : length (v / c) = length v / |c| := by
  have h : dot (v / c) (v / c) = dot v v / c ^ 2 := by simp [dot]; ring
  rw [length, h, Real.sqrt_div (dot_self_nonneg v), Real.sqrt_sq_eq_abs, length]

theorem length_normalize {v : V3} (h : v ≠ 0) : length (normalize v) = 1 := by
  have hl : length v ≠ 0 := fun hc => h ((length_eq_zero_iff v).mp hc)
  rw [normalize, length_sdiv, abs_of_nonneg (length_nonneg v), div_self hl]

theorem length_normalize_smul {v : V3} (h : v ≠ 0) (c : ℝ) :
    length (normalize v * c) = |c| := by
  rw [length_smul, length_normalize h, one_mul]

theorem normalize_mk_x_pos {c : ℝ} (h : 0 < c) : normalize ⟨c, 0, 0⟩ = ⟨1, 0, 0⟩ := by
  rw [normalize, length_mk_x, abs_of_pos h]
  ext <;> simp [div_self (ne_of_gt h)]

theorem normalize_mk_x_neg {c : ℝ} (h : c < 0) : normalize ⟨c, 0, 0⟩ = ⟨-1, 0, 0⟩ := by
  rw [normalize, length_mk_x, abs_of_neg h]
  ext <;> simp
  rw [div_neg, div_self (ne_of_lt h)]

theorem sdiv_sdiv (v : V3) (a b : ℝ) : v / a / b = v / (a * b) := by
  ext <;> simp [div_div]

/-- GLSL `floor` applied componentwise to a `vec3`. -/
noncomputable def floorV (p : V3) : V3 := ⟨(⌊p.x⌋ : ℝ), (⌊p.y⌋ : ℝ), (⌊p.z⌋ : ℝ)⟩

/-- GLSL `fract` applied componentwise to a `vec3`. -/
noncomputable def fractV (p : V3) : V3 := ⟨fract p.x, fract p.y, fract p.z⟩

/-- velocityFragment.glsl `hash3`: pseudo-random gradient hash
`-1.0 + 2.0 * fract(sin(p') * 43758.5453123)` after the three dot products. -/
noncomputable def hash3 (p : V3) : V3 :=
  let q : V3 := ⟨dot p ⟨127.1, 311.7, 74.7⟩,
                 dot p ⟨269.5, 183.3, 246.1⟩,
                 dot p ⟨113.5, 271.9, 124.6⟩⟩
  ⟨-1 + 2 * fract (Real.sin q.x * 43758.5453123),
   -1 + 2 * fract (Real.sin q.y * 43758.5453123),
   -1 + 2 * fract (Real.sin q.z * 43758.5453123)⟩

/-- velocityFragment.glsl `noise3D`: 3D gradient noise, a smoothstep-weighted
trilinear blend of hashed-gradient dot products at the 8 lattice corners. -/
noncomputable def noise3D (p : V3) : ℝ :=
  let i := floorV p
  let f := fractV p
  let u := f * f * (vec3 3 - f * (2 : ℝ))
  mixR
    (mixR (mixR (dot (hash3 (i + ⟨0, 0, 0⟩)) (f - ⟨0, 0, 0⟩))
                (dot (hash3 (i + ⟨1, 0, 0⟩)) (f - ⟨1, 0, 0⟩)) u.x)
          (mixR (dot (hash3 (i + ⟨0, 1, 0⟩)) (f - ⟨0, 1, 0⟩))
                (dot (hash3 (i + ⟨1, 1, 0⟩)) (f - ⟨1, 1, 0⟩)) u.x) u.y)
    (mixR (mixR (dot (hash3 (i + ⟨0, 0, 1⟩)) (f - ⟨0, 0, 1⟩))
                (dot (hash3 (i + ⟨1, 0, 1⟩)) (f - ⟨1, 0, 1⟩)) u.x)
          (mixR (dot (hash3 (i + ⟨0, 1, 1⟩)) (f - ⟨0, 1, 1⟩))
                (dot (hash3 (i + ⟨1, 1, 1⟩)) (f - ⟨1, 1, 1⟩)) u.x) u.y)
    u.z

/-- velocityFragment.glsl `curlNoise`: central finite differences of `noise3D`
with step `e = 0.1`, combined antisymmetrically.  The source recomputes `d`,
`ee` and `f` (identical to `b`, `a` and `c`); that redundancy is kept. -/
noncomputable def curlNoise (p : V3) : V3 :=
  let e := (0.1 : ℝ)
  let a := (noise3D (p + ⟨0, e, 0⟩) - noise3D (p - ⟨0, e, 0⟩)) / (2 * e)
  let b := (noise3D (p + ⟨0, 0, e⟩) - noise3D (p - ⟨0, 0, e⟩)) / (2 * e)
  let c := (noise3D (p + ⟨e, 0, 0⟩) - noise3D (p - ⟨e, 0, 0⟩)) / (2 * e)
  let d := (noise3D (p + ⟨0, 0, e⟩) - noise3D (p - ⟨0, 0, e⟩)) / (2 * e)
  let ee := (noise3D (p + ⟨0, e, 0⟩) - noise3D (p - ⟨0, e, 0⟩)) / (2 * e)
  let f := (noise3D (p + ⟨e, 0, 0⟩) - noise3D (p - ⟨e, 0, 0⟩)) / (2 * e)
  ⟨a - d, b - f, c - ee⟩

/-- Discrete divergence estimate of a vector field, by central finite
differences with the same step `e = 0.1` the curl uses (spec §8: "numerically
estimated divergence at sample points").  Property definition from the spec,
not a translation of source code. -/
noncomputable def discDiv (F : V3 → V3) (p : V3) : ℝ :=
  let e := (0.1 : ℝ)
  ((F (p + ⟨e, 0, 0⟩)).x - (F (p - ⟨e, 0, 0⟩)).x) / (2 * e)
    + ((F (p + ⟨0, e, 0⟩)).y - (F (p - ⟨0, e, 0⟩)).y) / (2 * e)
    + ((F (p + ⟨0, 0, e⟩)).z - (F (p - ⟨0, 0, e⟩)).z) / (2 * e)

/-- velocityFragment.glsl `MAX_SAMPLES` (the sampling budget K). -/
def MAX_SAMPLES : ℕ := 300

/-- velocityFragment.glsl `stride = max(1.0, floor(TOTAL_PARTICLES / 300.0))`.
For the configurations considered the float arithmetic is exact, so it is
embedded as natural floor division. -/
def strideOf (total : ℕ) : ℕ := max 1 (total / MAX_SAMPLES)

/-- The NeighborSampler: the sequence of agent ids the velocity shader's
stride-sampling loop actually reads for the agent at pixel `(sx, sy)`.

Per iteration (velocityFragment.glsl, loop body): `idx = i * stride`,
`px = mod(idx, W)`, `py = floor(idx / W)`; the lookup UV
`((px+0.5)/W, (py+0.5)/H)` with `RepeatWrapping` (set in main.ts) addresses
the texel holding agent id `(py mod H)·W + px`.  The self-skip test compares
the integer-valued floats `px`, `py` against `gl_FragCoord.xy = (sx+0.5,
sy+0.5)`; those half-integer float comparisons are exact, so they are embedded
over `ℚ`. -/
def sampleIds (W H sx sy : ℕ) : List ℕ :=
  (List.range MAX_SAMPLES).filterMap (fun i =>
    let idx := i * strideOf (W * H)
    let px := idx % W
    let py := idx / W
    if |(px : ℚ) - ((sx : ℚ) + 0.5)| < 0.5 ∧ |(py : ℚ) - ((sy : ℚ) + 0.5)| < 0.5
    then none
    else some ((py % H) * W + px))

/-- The self-skip comparison `abs(px - gl_FragCoord.x) < 0.5` is unsatisfiable:
`px` is an integer and `gl_FragCoord.x` a half-integer, so their distance is at
least `1/2`. -/
theorem skip_test_never (px sx : ℕ) : ¬ |(px : ℚ) - ((sx : ℚ) + 0.5)| < 0.5 := by
  intro h
  rcases abs_lt.mp h with ⟨h1, h2⟩
  have hgt : (sx : ℚ) < (px : ℚ) := by linarith
  have hlt : (px : ℚ) < (sx : ℚ) + 1 := by linarith
  have hgt' : sx < px := by exact_mod_cast hgt
  have hlt' : px < sx + 1 := by exact_mod_cast hlt
  omega

theorem filterMap_some_eq_map {α β : Type} (f : α → β) (l : List α) :
    l.filterMap (fun a => some (f a)) = l.map f := by
  induction l with
  | nil => rfl
  | cons a l ih => simp [List.filterMap_cons, ih]

/-- Because the self-skip never fires, the sampler degenerates to the plain
stride map over all `MAX_SAMPLES` loop iterations. -/
theorem sampleIds_eq_map (W H sx sy : ℕ) :
    sampleIds W H sx sy =
      (List.range MAX_SAMPLES).map (fun i =>
        (i * strideOf (W * H) / W % H) * W + i * strideOf (W * H) % W) := by
  unfold sampleIds
  have h : (fun i =>
      let idx := i * strideOf (W * H)
      let px := idx % W
      let py := idx / W
      if |(px : ℚ) - ((sx : ℚ) + 0.5)| < 0.5 ∧ |(py : ℚ) - ((sy : ℚ) + 0.5)| < 0.5
      then (none : Option ℕ)
      else some ((py % H) * W + px)) =
      (fun i => some ((i * strideOf (W * H) / W % H) * W + i * strideOf (W * H) % W)) := by
    funext i
    rw [if_neg]
    exact fun hc => skip_test_never _ _ hc.1
  rw [h, filterMap_some_eq_map]

/-- On a 1×1 grid every loop iteration samples agent 0. -/
theorem sampleIds_one_one : sampleIds 1 1 0 0 = List.replicate MAX_SAMPLES 0 := by
  rw [sampleIds_eq_map]
  have h : (fun i => (i * strideOf (1 * 1) / 1 % 1) * 1 + i * strideOf (1 * 1) % 1) =
      (fun _ : ℕ => (0 : ℕ)) := by
    funext i; simp [Nat.mod_one]
  rw [h, List.map_const', List.length_range]

/-- The eight uniforms of velocityFragment.glsl that come from the
SimulationParameters panel (main.ts `params`), in shader declaration order. -/
structure SimParams where
  uSeparationWeight : ℝ
  uAlignmentWeight : ℝ
  uCohesionWeight : ℝ
  uMaxSpeed : ℝ
  uPerceptionRadius : ℝ
  uBoundaryRadius : ℝ
  uSeparationRadius : ℝ
  uTurbulence : ℝ

/-- One generation of the double-buffered AgentStateStore: the
`texturePosition` / `textureVelocity` textures of size `W × H`, addressed by
agent id (`id → texel (id mod W, id div W)`, as in main.ts
`createBirdGeometry`). -/
structure AgentGrid where
  W : ℕ
  H : ℕ
  pos : ℕ → V3
  vel : ℕ → V3

/-- The accumulators of the velocity shader's sampling loop, in declaration
order (counts are floats in the shader). -/
structure BoidsAccum where
  separation : V3
  alignment : V3
  cohesion : V3
  separationCount : ℝ
  alignmentCount : ℝ
  cohesionCount : ℝ

/-- The accumulators' initial values (all zero). -/
noncomputable def accum0 : BoidsAccum := ⟨0, 0, 0, 0, 0, 0⟩

/-- One iteration of the velocity shader's sampling loop, processing the
neighbour with agent id `nid`:

    vec3 diff = myPos - neighborPos;  float dist = length(diff);
    if (dist > 0.0 && dist < uSeparationRadius) {
      separation += normalize(diff) / dist;  separationCount += 1.0; }
    if (dist > 0.0 && dist < uPerceptionRadius) {
      alignment += neighborVel;  alignmentCount += 1.0;
      cohesion += neighborPos;   cohesionCount += 1.0; }                  -/
noncomputable def loopBody (g : AgentGrid) (myPos : V3)
    (uSeparationRadius uPerceptionRadius : ℝ) (s : BoidsAccum) (nid : ℕ) :
    BoidsAccum :=
  let neighborPos := g.pos nid
  let neighborVel := g.vel nid
  let diff := myPos - neighborPos
  let dist := length diff
  let s1 := if dist > 0 ∧ dist < uSeparationRadius then
      { s with separation := s.separation + normalize diff / dist,
               separationCount := s.separationCount + 1 }
    else s
  if dist > 0 ∧ dist < uPerceptionRadius then
    { s1 with alignment := s1.alignment + neighborVel,
              alignmentCount := s1.alignmentCount + 1,
              cohesion := s1.cohesion + neighborPos,
              cohesionCount := s1.cohesionCount + 1 }
  else s1

/-- The argument of the one unguarded `normalize` in the velocity shader, in
the global-centroid-pull term: `normalize(myPos + vec3(0.0001))`. -/
noncomputable def centroidPullArg (myPos : V3) : V3 := myPos + vec3 0.0001

/-- The soft spherical boundary block of the velocity shader
(its contribution to `accel`):

    if (distFromCenter > uBoundaryRadius * 0.7) {
      float t = (distFromCenter - uBoundaryRadius * 0.7) / (uBoundaryRadius * 0.3);
      t = clamp(t, 0.0, 1.0);
      float strength = t * t * t * uMaxSpeed * 2.0;
      accel -= normalize(myPos) * strength; }                             -/
noncomputable def boundaryAccel (myPos : V3) (uBoundaryRadius uMaxSpeed : ℝ) : V3 :=
  let distFromCenter := length myPos
  if distFromCenter > uBoundaryRadius * 0.7 then
    (let t := (distFromCenter - uBoundaryRadius * 0.7) / (uBoundaryRadius * 0.3);
     let t := clampR t 0 1;
     let strength := t * t * t * uMaxSpeed * 2;
     -(normalize myPos * strength))
  else 0

/-- The total acceleration the velocity shader accumulates for the agent at
pixel `(sx, sy)`: separation, alignment and cohesion (averaged, weighted, with
the `N/K` sampling compensation), curl-noise turbulence, global centroid pull
and the soft boundary, in source order. -/
noncomputable def velAccel (g : AgentGrid) (P : SimParams) (uTime : ℝ)
    (sx sy : ℕ) : V3 :=
  let myPos := g.pos (sy * g.W + sx)
  let myVel := g.vel (sy * g.W + sx)
  let acc := (sampleIds g.W g.H sx sy).foldl
    (loopBody g myPos P.uSeparationRadius P.uPerceptionRadius) accum0
  let sampleCompensation := ((g.W * g.H : ℕ) : ℝ) / (MAX_SAMPLES : ℝ)
  let accel : V3 := 0
  let accel := accel + (if acc.separationCount > 0 then
      (acc.separation / acc.separationCount) * P.uSeparationWeight
        * min (acc.separationCount * sampleCompensation / 10) 3
    else 0)
  let accel := accel + (if acc.alignmentCount > 0 then
      (let alignment := acc.alignment / acc.alignmentCount;
       let alignSteer := alignment - myVel;
       let alignLen := length alignSteer;
       let alignSteer := if alignLen > 0.001 then normalize alignSteer else alignSteer;
       alignSteer * P.uAlignmentWeight)
    else 0)
  let accel := accel + (if acc.cohesionCount > 0 then
      (let cohesion := acc.cohesion / acc.cohesionCount;
       let toCenter := cohesion - myPos;
       let toCenterLen := length toCenter;
       let toCenter := if toCenterLen > 0.001 then
           normalize toCenter * smoothstep 0 P.uPerceptionRadius toCenterLen
         else toCenter;
       toCenter * P.uCohesionWeight)
    else 0)
  let noisePos := myPos * (0.008 : ℝ) + vec3 (uTime * 0.15)
  let accel := accel + curlNoise noisePos * P.uTurbulence
  let distFromCenter := length myPos
  let globalPull := smoothstep (P.uBoundaryRadius * 0.5) P.uBoundaryRadius distFromCenter
  let accel := accel - normalize (centroidPullArg myPos) * globalPull * P.uCohesionWeight * (0.15 : ℝ)
  accel + boundaryAccel myPos P.uBoundaryRadius P.uMaxSpeed

/-- The integrated, pre-clamp velocity: `newVel = myVel + accel * uDelta`. -/
noncomputable def velIntegrated (g : AgentGrid) (P : SimParams)
    (uDelta uTime : ℝ) (sx sy : ℕ) : V3 :=
  g.vel (sy * g.W + sx) + velAccel g P uTime sx sy * uDelta

/-- The speed-clamp epilogue of the velocity shader.  Note `speed` is computed
once, before the max-speed clamp, and the min-speed test reuses that stale
value:

    float speed = length(newVel);
    if (speed > uMaxSpeed) { newVel = normalize(newVel) * uMaxSpeed; }
    float minSpeed = uMaxSpeed * 0.2;
    if (speed < minSpeed && speed > 0.001) { newVel = normalize(newVel) * minSpeed; } -/
noncomputable def speedClamp (v : V3) (uMaxSpeed : ℝ) : V3 :=
  let speed := length v
  let newVel := if speed > uMaxSpeed then normalize v * uMaxSpeed else v
  let minSpeed := uMaxSpeed * 0.2
  if speed < minSpeed ∧ speed > 0.001 then normalize newVel * minSpeed else newVel

/-- velocityFragment.glsl `main` for the agent at pixel `(sx, sy)`: accumulate
the acceleration, integrate, clamp. -/
noncomputable def velocityKernel (g : AgentGrid) (P : SimParams)
    (uDelta uTime : ℝ) (sx sy : ℕ) : V3 :=
  speedClamp (velIntegrated g P uDelta uTime sx sy) P.uMaxSpeed

/-- positionFragment.glsl `main`: `pos += vel * uDelta`. -/
noncomputable def positionKernel (pos vel : V3) (uDelta : ℝ) : V3 :=
  pos + vel * uDelta

/-- One simulation tick, following the semantics of
`GPUComputationRenderer.compute` (the three.js addon driving both shaders in
main.ts): for every compute variable the dependency uniforms are bound to the
current-generation render targets, and each shader writes the next-generation
target.  Hence the position kernel and the velocity kernel both read
generation `g` (positions and velocities), and the buffers swap afterwards. -/
noncomputable def tick (g : AgentGrid) (P : SimParams) (uDelta uTime : ℝ) :
    AgentGrid :=
  { g with
    pos := fun id => positionKernel (g.pos id) (g.vel id) uDelta,
    vel := fun id => velocityKernel g P uDelta uTime (id % g.W) (id / g.W) }

/-- main.ts `fillPositionTexture`, one agent record: a random radius
`r = u1 * spread` with `spread = boundaryRadius * 0.6`, random angles
`theta = u2 * π * 2`, `phi = acos(2*u3 - 1)`, converted to Cartesian
coordinates.  The `u`s stand for the `Math.random()` draws in `[0, 1)`. -/
noncomputable def fillPositionEntry (boundaryRadius u1 u2 u3 : ℝ) : V3 :=
  let spread := boundaryRadius * 0.6
  let r := u1 * spread
  let theta := u2 * Real.pi * 2
  let phi := Real.arccos (2 * u3 - 1)
  ⟨r * Real.sin phi * Real.cos theta,
   r * Real.sin phi * Real.sin theta,
   r * Real.cos phi⟩

/-- main.ts `fillVelocityTexture`, one agent record: a random direction at the
fixed speed `initSpeed = maxSpeed * 0.3`. -/
noncomputable def fillVelocityEntry (maxSpeed u1 u2 : ℝ) : V3 :=
  let initSpeed := maxSpeed * 0.3
  let theta := u1 * Real.pi * 2
  let phi := Real.arccos (2 * u2 - 1)
  ⟨initSpeed * Real.sin phi * Real.cos theta,
   initSpeed * Real.sin phi * Real.sin theta,
   initSpeed * Real.cos phi⟩

@[simp] theorem accum0_separation : accum0.separation = 0 := rfl

@[simp] theorem accum0_alignment : accum0.alignment = 0 := rfl

@[simp] theorem accum0_cohesion : accum0.cohesion = 0 := rfl

@[simp] theorem accum0_separationCount : accum0.separationCount = 0 := rfl

@[simp] theorem accum0_alignmentCount : accum0.alignmentCount = 0 := rfl

@[simp] theorem accum0_cohesionCount : accum0.cohesionCount = 0 := rfl

theorem length_neg (v : V3) : length (-v) = length v := by
  have h : dot (-v) (-v) = dot v v := by simp [dot]
  rw [length, h, length]

theorem clampR_nonneg (x : ℝ) : 0 ≤ clampR x 0 1 := by
  rw [clampR]
  exact le_min (le_max_right x 0) zero_le_one

theorem clampR_of_one_le {x : ℝ} (h : 1 ≤ x) : clampR x 0 1 = 1 := by
  rw [clampR, max_eq_left (le_trans zero_le_one h), min_eq_right h]

theorem foldl_fix {α β : Type} (f : α → β → α) (b : β) (h : ∀ a, f a b = a) :
    ∀ (n : ℕ) (s : α), (List.replicate n b).foldl f s = s := by
  intro n
  induction n with
  | zero => intro s; rfl
  | succ n ih => intro s; rw [List.replicate_succ, List.foldl_cons, h]; exact ih s

/-- A loop iteration whose sampled neighbour coincides with the agent itself
(`dist = 0`) leaves all accumulators unchanged. -/
theorem loopBody_self (g : AgentGrid) (myPos : V3) (r1 r2 : ℝ) (s : BoidsAccum)
    (nid : ℕ) (h : g.pos nid = myPos) : loopBody g myPos r1 r2 s nid = s := by
  simp only [loopBody, h]
  simp

/-- On a 1×1 grid with zero turbulence and zero cohesion weight, the whole
acceleration reduces to the soft-boundary term: all 300 samples hit the agent
itself (`dist = 0`), and the turbulence and centroid-pull terms are scaled
by zero. -/
theorem velAccel_single (g : AgentGrid) (P : SimParams) (uTime : ℝ)
    (hW : g.W = 1) (hH : g.H = 1) (hT : P.uTurbulence = 0)
    (hC : P.uCohesionWeight = 0) :
    velAccel g P uTime 0 0 = boundaryAccel (g.pos 0) P.uBoundaryRadius P.uMaxSpeed := by
  simp only [velAccel, hW, hH, hT, hC, Nat.zero_mul, Nat.add_zero, Nat.mul_one,
    Nat.one_mul]
  rw [sampleIds_one_one,
    foldl_fix _ _ (fun s => loopBody_self g _ _ _ s 0 rfl) MAX_SAMPLES accum0]
  simp [V3.smul_zero', V3.zero_smul']

theorem normalize_smul_eq (p : V3) (s : ℝ) :
    normalize p * s = p * (s / length p) := by
  ext <;> simp [normalize] <;> ring

/-- Claim C9: for every agent at distance `r = length p` from the origin, with
`0 < boundaryRadius` and `0 ≤ maxSpeed`: if `r ≤ 0.7 × boundaryRadius` no
boundary containment force is added; if `r > 0.7 × boundaryRadius` an inward
(toward-origin) acceleration of magnitude `t³ × 2 × maxSpeed` is added, with
`t = clamp((r − 0.7 × boundaryRadius) / (0.3 × boundaryRadius), 0, 1)`, and the
magnitude is exactly `2 × maxSpeed` at `r = boundaryRadius` and beyond. -/
theorem claimC9_soft_boundary (p : V3) (R M : ℝ) (hR : 0 < R) (hM : 0 ≤ M) :
    (length p ≤ R * 0.7 → boundaryAccel p R M = 0) ∧
    (R * 0.7 < length p →
      (let t := clampR ((length p - R * 0.7) / (R * 0.3)) 0 1
       boundaryAccel p R M = -(p * (t * t * t * M * 2 / length p)) ∧
       0 ≤ t * t * t * M * 2 / length p ∧
       length (boundaryAccel p R M) = t * t * t * M * 2 ∧
       (R ≤ length p → t * t * t * M * 2 = 2 * M))) := by
  constructor
  · intro h
    simp only [boundaryAccel]
    rw [if_neg (not_lt.mpr h)]
  · intro h
    have hlpos : 0 < length p := lt_of_le_of_lt (by nlinarith) h
    have hp : p ≠ 0 := by
      intro hc
      rw [hc, length_zero] at hlpos
      exact lt_irrefl 0 hlpos
    simp only [boundaryAccel]
    rw [if_pos h]
    set t := clampR ((length p - R * 0.7) / (R * 0.3)) 0 1 with ht
    have htn : 0 ≤ t := clampR_nonneg _
    have hsn : 0 ≤ t * t * t * M * 2 := by positivity
    refine ⟨?_, ?_, ?_, ?_⟩
    · rw [normalize_smul_eq]
    · positivity
    · rw [length_neg, length_smul, length_normalize hp, one_mul,
        abs_of_nonneg hsn]
    · intro hRle
      have hone : 1 ≤ (length p - R * 0.7) / (R * 0.3) := by
        rw [le_div_iff₀ (by linarith)]
        linarith
      rw [ht, clampR_of_one_le hone]
      ring

/-- Concrete instantiation of C9: an agent on the x-axis exactly at the
boundary radius receives an inward force of magnitude `2 × maxSpeed`. -/
theorem claimC9_soft_boundary_witness :
    (0 : ℝ) < 1 ∧ (0 : ℝ) ≤ 5 ∧
    length (boundaryAccel ⟨1, 0, 0⟩ 1 5) = 2 * 5 := by
  have h := claimC9_soft_boundary ⟨1, 0, 0⟩ 1 5 (by norm_num) (by norm_num)
  have hl : length (⟨1, 0, 0⟩ : V3) = 1 := by
    rw [length_mk_x]; norm_num
  have h2 := h.2 (by rw [hl]; norm_num)
  refine ⟨by norm_num, by norm_num, ?_⟩
  rw [h2.2.2.1, h2.2.2.2 (by rw [hl])]

theorem length_pos_of_ne {v : V3} (h : v ≠ 0) : 0 < length v :=
  lt_of_le_of_ne (length_nonneg v) fun hc => h ((length_eq_zero_iff v).mp hc.symm)

theorem ne_zero_of_length_gt {v : V3} {c : ℝ} (hc : 0 ≤ c) (h : c < length v) :
    v ≠ 0 := by
  intro h0
  rw [h0, length_zero] at h
  exact absurd h (not_lt.mpr hc)

/-- If the integrated velocity is moving at all (`speed > 0.001`), the clamp
epilogue outputs at least the minimum speed `0.2 × maxSpeed`. -/
theorem speedClamp_min (v : V3) (M : ℝ) (hM : 0 < M) (hv : 0.001 < length v) :
    M * 0.2 ≤ length (speedClamp v M) := by
  have hvne : v ≠ 0 := ne_zero_of_length_gt (by norm_num) hv
  simp only [speedClamp]
  split_ifs with hc hgt hgt
  · exact absurd hc.1 (not_lt.mpr (by linarith))
  · rw [length_normalize_smul hvne, abs_of_nonneg (by linarith)]
  · rw [length_normalize_smul (ne_zero_of_length_gt (le_of_lt hM) hgt),
      abs_of_nonneg (le_of_lt hM)]
    linarith
  · push_neg at hc
    rcases lt_or_le (length v) (M * 0.2) with h | h
    · exact absurd (hc h) (not_le.mpr hv)
    · exact h

/-- The clamp epilogue never outputs a speed above `maxSpeed`. -/
theorem speedClamp_le (v : V3) (M : ℝ) (hM : 0 < M) :
    length (speedClamp v M) ≤ M := by
  simp only [speedClamp]
  split_ifs with hc hgt hgt
  · exact absurd hc.1 (not_lt.mpr (by linarith))
  · rw [length_normalize_smul (ne_zero_of_length_gt (by norm_num) hc.2),
      abs_of_nonneg (by linarith)]
    linarith
  · rw [length_normalize_smul (ne_zero_of_length_gt (le_of_lt hM) hgt),
      abs_of_nonneg (le_of_lt hM)]
  · exact not_lt.mp hgt

/-- When the integrated speed exceeds `maxSpeed` the clamp rescales to exactly
`maxSpeed`. -/
theorem speedClamp_eq_of_gt (v : V3) (M : ℝ) (hM : 0 < M)
    (h : M < length v) : length (speedClamp v M) = M := by
  simp only [speedClamp]
  split_ifs with hc
  · exact absurd hc.1 (not_lt.mpr (by linarith))
  · rw [length_normalize_smul (ne_zero_of_length_gt (le_of_lt hM) h),
      abs_of_nonneg (le_of_lt hM)]

/-- Claim C5: for every agent, tick and parameter setting with
`maxSpeed > 0`, the velocity produced by the VelocityUpdateKernel has
magnitude at most `maxSpeed` (exactly, `ε = 0`), and whenever the integrated
velocity exceeds `maxSpeed` it is rescaled to exactly `maxSpeed`. -/
theorem claimC5_speed_bounded (g : AgentGrid) (P : SimParams)
    (uDelta uTime : ℝ) (sx sy : ℕ) (hM : 0 < P.uMaxSpeed) :
    length (velocityKernel g P uDelta uTime sx sy) ≤ P.uMaxSpeed ∧
    (P.uMaxSpeed < length (velIntegrated g P uDelta uTime sx sy) →
      length (velocityKernel g P uDelta uTime sx sy) = P.uMaxSpeed) :=
  ⟨speedClamp_le _ _ hM, fun h => speedClamp_eq_of_gt _ _ hM h⟩

/-- Test parameters: all force weights and turbulence zero, `maxSpeed = 10`,
`boundaryRadius = 1` (perception and separation radii as in the panel). -/
noncomputable def paramsHit : SimParams := ⟨0, 0, 0, 10, 120, 1, 25, 0⟩

/-- Test parameters: all force weights and turbulence zero, `maxSpeed = 1`,
`boundaryRadius = 1`. -/
noncomputable def paramsUnit : SimParams := ⟨0, 0, 0, 1, 120, 1, 25, 0⟩

/-- One agent sitting exactly on the boundary sphere, moving outward. -/
noncomputable def gridHit : AgentGrid := ⟨1, 1, fun _ => ⟨1, 0, 0⟩, fun _ => ⟨1, 0, 0⟩⟩

/-- One agent resting exactly on the boundary sphere. -/
noncomputable def gridPushed : AgentGrid := ⟨1, 1, fun _ => ⟨1, 0, 0⟩, fun _ => 0⟩

/-- One agent at the origin moving at twice the max speed. -/
noncomputable def gridFast : AgentGrid := ⟨1, 1, fun _ => 0, fun _ => ⟨2, 0, 0⟩⟩

/-- One agent at the origin moving below the minimum speed. -/
noncomputable def gridSlow : AgentGrid := ⟨1, 1, fun _ => 0, fun _ => ⟨0.1, 0, 0⟩⟩

/-- One agent at the origin cruising at half the max speed. -/
noncomputable def gridCruise : AgentGrid := ⟨1, 1, fun _ => 0, fun _ => ⟨0.5, 0, 0⟩⟩

theorem boundaryAccel_unit_x (M : ℝ) :
    boundaryAccel ⟨1, 0, 0⟩ 1 M = ⟨-(M * 2), 0, 0⟩ := by
  have hl : length (⟨1, 0, 0⟩ : V3) = 1 := by rw [length_mk_x]; norm_num
  simp only [boundaryAccel, hl]
  rw [if_pos (by norm_num)]
  have hc : clampR ((1 - 1 * 0.7) / (1 * 0.3)) 0 1 = 1 :=
    clampR_of_one_le (by norm_num)
  rw [hc, normalize_mk_x_pos one_pos]
  ext <;> simp

theorem boundaryAccel_origin (R M : ℝ) (hR : 0 ≤ R) :
    boundaryAccel 0 R M = 0 := by
  simp only [boundaryAccel, length_zero]
  rw [if_neg (not_lt.mpr (by nlinarith))]

theorem speedClamp_zero_vec (M : ℝ) : speedClamp 0 M = 0 := by
  simp only [speedClamp, length_zero, normalize]
  split_ifs <;> ext <;> simp

theorem velIntegrated_gridHit :
    velIntegrated gridHit paramsHit 0.05 0 0 0 = 0 := by
  simp only [velIntegrated, velAccel_single gridHit paramsHit 0 rfl rfl rfl rfl]
  show (⟨1, 0, 0⟩ : V3) + boundaryAccel ⟨1, 0, 0⟩ 1 10 * (0.05 : ℝ) = 0
  rw [boundaryAccel_unit_x]
  ext <;> simp <;> norm_num

theorem velocityKernel_gridHit :
    velocityKernel gridHit paramsHit 0.05 0 0 0 = 0 := by
  rw [velocityKernel, velIntegrated_gridHit]
  exact speedClamp_zero_vec _

/-- Claim C1 as stated is false: in the tick driven by
`GPUComputationRenderer.compute`, the position kernel reads the
previous-generation velocity, not the velocity the velocity kernel writes in
the same tick.  Concretely: one agent on the boundary sphere moving outward at
speed 1 has its velocity cancelled by the boundary force within the tick
(next velocity `0`), yet its next position still advances by the old
velocity: `nextPos = (1.05, 0, 0) ≠ pos + nextVel × dt = (1, 0, 0)`. -/
theorem claimC1_counterexample :
    (tick gridHit paramsHit 0.05 0).pos 0 ≠
      gridHit.pos 0 + (tick gridHit paramsHit 0.05 0).vel 0 * (0.05 : ℝ) := by
  have hv : (tick gridHit paramsHit 0.05 0).vel 0 = 0 := by
    show velocityKernel gridHit paramsHit 0.05 0 (0 % gridHit.W) (0 / gridHit.W) = 0
    exact velocityKernel_gridHit
  have hp : (tick gridHit paramsHit 0.05 0).pos 0 =
      (⟨1, 0, 0⟩ : V3) + (⟨1, 0, 0⟩ : V3) * (0.05 : ℝ) := rfl
  rw [hp, hv]
  intro h
  have hx := congrArg V3.x h
  simp [gridHit] at hx
  norm_num at hx

/-- Claim C1, amended: for every agent and tick, the PositionUpdateKernel
computes `nextPosition = position + velocity × dt` with the
previous-generation velocity (both compute variables read the
current-generation textures; the next-generation velocity plays no role in the
position update of the same tick). -/
theorem claimC1_amended (g : AgentGrid) (P : SimParams) (uDelta uTime : ℝ)
    (id : ℕ) :
    (tick g P uDelta uTime).pos id = g.pos id + g.vel id * uDelta := rfl

/-- Claim C4 as stated is false: the no-stalling guard tests the *integrated*
speed `|myVel + accel·dt|`, not the pre-update speed.  An agent moving at
speed 1 (well above any small `ε₀`) whose velocity is exactly cancelled by the
boundary force during the tick ends with speed `0`, far below
`0.2 × maxSpeed = 2`. -/
theorem claimC4_counterexample :
    0.001 < length (gridHit.vel 0) ∧
    velocityKernel gridHit paramsHit 0.05 0 0 0 = 0 ∧
    0.2 * paramsHit.uMaxSpeed = 2 := by
  refine ⟨?_, velocityKernel_gridHit, by norm_num [paramsHit]⟩
  show (0.001 : ℝ) < length ⟨1, 0, 0⟩
  rw [length_mk_x]
  norm_num

/-- Claim C4, amended: if the *integrated* velocity `myVel + accel·dt` has
magnitude above the `0.001` threshold (and `maxSpeed > 0`), the velocity
written by the kernel has magnitude at least `0.2 × maxSpeed` (exactly,
`ε = 0`). -/
theorem claimC4_amended (g : AgentGrid) (P : SimParams) (uDelta uTime : ℝ)
    (sx sy : ℕ) (hM : 0 < P.uMaxSpeed)
    (hmov : 0.001 < length (velIntegrated g P uDelta uTime sx sy)) :
    P.uMaxSpeed * 0.2 ≤ length (velocityKernel g P uDelta uTime sx sy) :=
  speedClamp_min _ _ hM hmov

theorem velIntegrated_gridPushed :
    velIntegrated gridPushed paramsUnit 0.05 0 0 0 = ⟨-0.1, 0, 0⟩ := by
  simp only [velIntegrated, velAccel_single gridPushed paramsUnit 0 rfl rfl rfl rfl]
  show (0 : V3) + boundaryAccel ⟨1, 0, 0⟩ 1 1 * (0.05 : ℝ) = ⟨-0.1, 0, 0⟩
  rw [boundaryAccel_unit_x]
  ext <;> simp <;> norm_num

/-- Concrete instantiation of the amended C4: an agent pushed by the boundary
force to integrated velocity `(-0.1, 0, 0)` (speed `0.1 > 0.001`) is boosted
to at least `0.2 × maxSpeed = 0.2`. -/
theorem claimC4_amended_witness :
    (0 : ℝ) < paramsUnit.uMaxSpeed ∧
    0.001 < length (velIntegrated gridPushed paramsUnit 0.05 0 0 0) ∧
    paramsUnit.uMaxSpeed * 0.2 ≤
      length (velocityKernel gridPushed paramsUnit 0.05 0 0 0) := by
  have hlen : 0.001 < length (velIntegrated gridPushed paramsUnit 0.05 0 0 0) := by
    rw [velIntegrated_gridPushed, length_mk_x, abs_of_neg (by norm_num : (-0.1 : ℝ) < 0)]
    norm_num
  exact ⟨by norm_num [paramsUnit], hlen,
    claimC4_amended gridPushed paramsUnit 0.05 0 0 0 (by norm_num [paramsUnit]) hlen⟩

/-- Concrete instantiation of C5: an agent moving at twice the max speed is
clamped back under it. -/
theorem claimC5_speed_bounded_witness :
    (0 : ℝ) < paramsUnit.uMaxSpeed ∧
    length (velocityKernel gridFast paramsUnit 0.05 0 0 0) ≤ paramsUnit.uMaxSpeed :=
  ⟨by norm_num [paramsUnit],
    (claimC5_speed_bounded gridFast paramsUnit 0.05 0 0 0 (by norm_num [paramsUnit])).1⟩

/-- With all four weights zero and the agent inside `0.7 × boundaryRadius`,
the accumulated acceleration vanishes identically (every force term is scaled
by one of the zero weights, and the boundary branch is not taken). -/
theorem velAccel_zero_weights (g : AgentGrid) (P : SimParams) (uTime : ℝ)
    (sx sy : ℕ) (hs : P.uSeparationWeight = 0) (ha : P.uAlignmentWeight = 0)
    (hc : P.uCohesionWeight = 0) (ht : P.uTurbulence = 0)
    (hin : length (g.pos (sy * g.W + sx)) ≤ P.uBoundaryRadius * 0.7) :
    velAccel g P uTime sx sy = 0 := by
  have hb : boundaryAccel (g.pos (sy * g.W + sx)) P.uBoundaryRadius P.uMaxSpeed = 0 := by
    simp only [boundaryAccel]
    rw [if_neg (not_lt.mpr hin)]
  simp only [velAccel, hs, ha, hc, ht, hb]
  simp [V3.smul_zero', V3.zero_smul']

/-- The speed clamp applied to the agent of `gridSlow`: speed `0.1` is below
`minSpeed = 0.2`, so the velocity is rescaled up to `(0.2, 0, 0)`. -/
theorem speedClamp_slow : speedClamp ⟨0.1, 0, 0⟩ 1 = ⟨0.2, 0, 0⟩ := by
  have hl : length (⟨0.1, 0, 0⟩ : V3) = 0.1 := by
    rw [length_mk_x, abs_of_pos (by norm_num : (0.1 : ℝ) > 0)]
  simp only [speedClamp, hl]
  rw [if_pos (by norm_num : (0.1 : ℝ) < 1 * 0.2 ∧ (0.1 : ℝ) > 0.001),
    if_neg (by norm_num : ¬((0.1 : ℝ) > 1)),
    normalize_mk_x_pos (by norm_num : (0 : ℝ) < 0.1)]
  ext <;> simp <;> norm_num

theorem velIntegrated_gridSlow :
    velIntegrated gridSlow paramsUnit 0.05 0 0 0 = ⟨0.1, 0, 0⟩ := by
  simp only [velIntegrated,
    velAccel_zero_weights gridSlow paramsUnit 0 0 0 rfl rfl rfl rfl
      (by show length (0 : V3) ≤ (1 : ℝ) * 0.7; rw [length_zero]; norm_num)]
  show (⟨0.1, 0, 0⟩ : V3) + (0 : V3) * (0.05 : ℝ) = ⟨0.1, 0, 0⟩
  ext <;> simp

/-- Claim C6 as stated is false: even with all weights and turbulence zero,
one tick does not leave every agent's velocity unchanged — the minimum-speed
clamp rescales an agent drifting at speed `0.1 < 0.2 × maxSpeed` up to speed
`0.2`. -/
theorem claimC6_counterexample :
    paramsUnit.uSeparationWeight = 0 ∧ paramsUnit.uAlignmentWeight = 0 ∧
    paramsUnit.uCohesionWeight = 0 ∧ paramsUnit.uTurbulence = 0 ∧
    (tick gridSlow paramsUnit 0.05 0).vel 0 ≠ gridSlow.vel 0 := by
  refine ⟨rfl, rfl, rfl, rfl, ?_⟩
  have hv : (tick gridSlow paramsUnit 0.05 0).vel 0 = ⟨0.2, 0, 0⟩ := by
    show velocityKernel gridSlow paramsUnit 0.05 0 (0 % gridSlow.W) (0 / gridSlow.W) =
      ⟨0.2, 0, 0⟩
    show speedClamp (velIntegrated gridSlow paramsUnit 0.05 0 0 0) paramsUnit.uMaxSpeed =
      ⟨0.2, 0, 0⟩
    rw [velIntegrated_gridSlow]
    exact speedClamp_slow
  rw [hv]
  intro h
  have hx := congrArg V3.x h
  simp [gridSlow] at hx
  norm_num at hx

/-- Claim C6, amended: with all weights and turbulence zero, and provided the
agent is inside the boundary comfort zone (`|pos| ≤ 0.7 × boundaryRadius`, so
no containment force acts) and its speed lies in `[0.2 × maxSpeed, maxSpeed]`
(so neither clamp fires), one tick leaves the velocity unchanged and advances
the position by exactly `velocity × dt`. -/
theorem claimC6_amended (g : AgentGrid) (P : SimParams) (uDelta uTime : ℝ)
    (id : ℕ) (hs : P.uSeparationWeight = 0) (ha : P.uAlignmentWeight = 0)
    (hc : P.uCohesionWeight = 0) (ht : P.uTurbulence = 0)
    (hin : length (g.pos id) ≤ P.uBoundaryRadius * 0.7)
    (hlo : P.uMaxSpeed * 0.2 ≤ length (g.vel id))
    (hhi : length (g.vel id) ≤ P.uMaxSpeed) :
    (tick g P uDelta uTime).vel id = g.vel id ∧
    (tick g P uDelta uTime).pos id = g.pos id + g.vel id * uDelta := by
  have hid : id / g.W * g.W + id % g.W = id := by
    rw [Nat.mul_comm]
    exact Nat.div_add_mod id g.W
  refine ⟨?_, rfl⟩
  show velocityKernel g P uDelta uTime (id % g.W) (id / g.W) = g.vel id
  have hacc : velAccel g P uTime (id % g.W) (id / g.W) = 0 :=
    velAccel_zero_weights g P uTime _ _ hs ha hc ht (by rw [hid]; exact hin)
  have hint : velIntegrated g P uDelta uTime (id % g.W) (id / g.W) = g.vel id := by
    simp only [velIntegrated, hacc, V3.zero_smul', add_zero, hid]
  rw [velocityKernel, hint]
  simp only [speedClamp]
  have houter : ¬(length (g.vel id) < P.uMaxSpeed * 0.2 ∧ length (g.vel id) > 0.001) :=
    fun hq => absurd hq.1 (not_lt.mpr hlo)
  rw [if_neg houter, if_neg (not_lt.mpr hhi)]

/-- Concrete instantiation of the amended C6: an agent cruising at half the
max speed inside the comfort zone is untouched by the tick. -/
theorem claimC6_amended_witness :
    length (gridCruise.pos 0) ≤ paramsUnit.uBoundaryRadius * 0.7 ∧
    paramsUnit.uMaxSpeed * 0.2 ≤ length (gridCruise.vel 0) ∧
    length (gridCruise.vel 0) ≤ paramsUnit.uMaxSpeed ∧
    (tick gridCruise paramsUnit 0.05 0).vel 0 = gridCruise.vel 0 ∧
    (tick gridCruise paramsUnit 0.05 0).pos 0 =
      gridCruise.pos 0 + gridCruise.vel 0 * (0.05 : ℝ) := by
  have hL : length (gridCruise.vel 0) = 0.5 := by
    show length ⟨0.5, 0, 0⟩ = 0.5
    rw [length_mk_x, abs_of_pos (by norm_num : (0.5 : ℝ) > 0)]
  have h1 : length (gridCruise.pos 0) ≤ paramsUnit.uBoundaryRadius * 0.7 := by
    show length (0 : V3) ≤ (1 : ℝ) * 0.7
    rw [length_zero]; norm_num
  have h2 : paramsUnit.uMaxSpeed * 0.2 ≤ length (gridCruise.vel 0) := by
    rw [hL]; show (1 : ℝ) * 0.2 ≤ 0.5; norm_num
  have h3 : length (gridCruise.vel 0) ≤ paramsUnit.uMaxSpeed := by
    rw [hL]; show (0.5 : ℝ) ≤ 1; norm_num
  obtain ⟨hv, hp⟩ :=
    claimC6_amended gridCruise paramsUnit 0.05 0 0 rfl rfl rfl rfl h1 h2 h3
  exact ⟨h1, h2, h3, hv, hp⟩

/-- Claim C2 as stated is false on the code: with `N = 65536` (a 256×256
grid) and `K = 300`, the querying agent with id 0 (pixel `(0,0)`) receives its
OWN id as the first candidate — the self-skip test
`abs(px - gl_FragCoord.x) < 0.5` compares the integer `px = 0` against the
half-integer `0.5` and is exactly false, so the skip never happens. -/
theorem claimC2_counterexample : 0 ∈ sampleIds 256 256 0 0 := by
  rw [sampleIds_eq_map]
  exact List.mem_map.mpr ⟨0, by simp [MAX_SAMPLES], by simp⟩

/-- Claim C2, amended: with `N = 65536` and `K = 300`, the NeighborSampler
produces, for EVERY querying agent, the same list of exactly `K = 300`
distinct candidate ids `0, S, 2S, …, 299·S` with `S = max(1, ⌊N/K⌋) = 218`
(so it is deterministic and independent of the querying agent); the self-skip
comparison is unsatisfiable, so the list is never shortened and contains the
querying agent's own id exactly when that id is one of the stride points. -/
theorem claimC2_amended (sx sy : ℕ) :
    sampleIds 256 256 sx sy = (List.range 300).map (fun i => i * 218) ∧
    ((List.range 300).map (fun i => i * 218)).Nodup ∧
    (sampleIds 256 256 sx sy).length = 300 := by
  have hstr : strideOf (256 * 256) = 218 := rfl
  have hmap : sampleIds 256 256 sx sy = (List.range 300).map (fun i => i * 218) := by
    rw [sampleIds_eq_map]
    simp only [MAX_SAMPLES, hstr]
    apply List.map_congr_left
    intro i hi
    rw [List.mem_range] at hi
    have h1 : i * 218 < 65536 := by omega
    omega
  refine ⟨hmap, ?_, ?_⟩
  · exact (List.nodup_range 300).map (fun a b hab => by omega)
  · rw [hmap, List.length_map, List.length_range]

/-- A 2×1 grid: agent 0 at `(2,0,0)`, agent 1 at the origin, both at rest. -/
noncomputable def gridPair : AgentGrid :=
  ⟨2, 1, fun n => if n = 0 then ⟨2, 0, 0⟩ else 0, fun _ => 0⟩

/-- Claim C3 as stated is false: for a neighbour at distance `d = 2` (inside
`separationRadius = 25`), the separation accumulator gains
`normalize(diff)/dist = diff/d² = (0.5, 0, 0)`, not the claimed
`diff/d = (1, 0, 0)`. -/
theorem claimC3_counterexample :
    (loopBody gridPair ⟨2, 0, 0⟩ 25 120 accum0 1).separation = ⟨0.5, 0, 0⟩ ∧
    accum0.separation +
        ((⟨2, 0, 0⟩ : V3) - gridPair.pos 1) /
          length ((⟨2, 0, 0⟩ : V3) - gridPair.pos 1) = ⟨1, 0, 0⟩ ∧
    ((⟨0.5, 0, 0⟩ : V3) ≠ ⟨1, 0, 0⟩) := by
  have hpos1 : gridPair.pos 1 = 0 := rfl
  have hlen2 : length (⟨2, 0, 0⟩ : V3) = 2 := by
    rw [length_mk_x, abs_of_pos (by norm_num : (0 : ℝ) < 2)]
  refine ⟨?_, ?_, ?_⟩
  · simp only [loopBody, hpos1, sub_zero, hlen2]
    rw [if_pos (⟨by norm_num, by norm_num⟩ : (2 : ℝ) > 0 ∧ (2 : ℝ) < 25),
      if_pos (⟨by norm_num, by norm_num⟩ : (2 : ℝ) > 0 ∧ (2 : ℝ) < 120),
      normalize_mk_x_pos (by norm_num : (0 : ℝ) < 2)]
    ext <;> simp <;> norm_num
  · rw [hpos1, sub_zero, hlen2]
    ext <;> simp <;> norm_num
  · intro h
    rw [V3.mk.injEq] at h
    norm_num at h

/-- Claim C3, amended: for every neighbour at distance `d` with
`0 < d < separationRadius`, the separation accumulator adds
`(mine.position − neighbor.position) / d²` — the code's
`normalize(diff)/dist`, which divides by the distance twice — and the
separation count increments by 1.  (The averaging by count and the scaling by
`separationWeight × min(count × N/K / 10, 3)` are as the claim states; see
`velAccel`.) -/
theorem claimC3_amended (g : AgentGrid) (myPos : V3) (uSepR uPercR : ℝ)
    (s : BoidsAccum) (nid : ℕ)
    (h1 : 0 < length (myPos - g.pos nid))
    (h2 : length (myPos - g.pos nid) < uSepR) :
    (loopBody g myPos uSepR uPercR s nid).separation =
      s.separation + (myPos - g.pos nid) /
        (length (myPos - g.pos nid) * length (myPos - g.pos nid)) ∧
    (loopBody g myPos uSepR uPercR s nid).separationCount = s.separationCount + 1 := by
  simp only [loopBody]
  rw [if_pos (⟨h1, h2⟩ : length (myPos - g.pos nid) > 0 ∧ length (myPos - g.pos nid) < uSepR)]
  constructor <;> split_ifs <;> simp [normalize, sdiv_sdiv]

/-- Concrete instantiation of the amended C3 at distance 2. -/
theorem claimC3_amended_witness :
    0 < length ((⟨2, 0, 0⟩ : V3) - gridPair.pos 1) ∧
    length ((⟨2, 0, 0⟩ : V3) - gridPair.pos 1) < 25 ∧
    (loopBody gridPair ⟨2, 0, 0⟩ 25 120 accum0 1).separation =
      accum0.separation + ((⟨2, 0, 0⟩ : V3) - gridPair.pos 1) /
        (length ((⟨2, 0, 0⟩ : V3) - gridPair.pos 1) *
          length ((⟨2, 0, 0⟩ : V3) - gridPair.pos 1)) := by
  have hlen : length ((⟨2, 0, 0⟩ : V3) - gridPair.pos 1) = 2 := by
    show length ((⟨2, 0, 0⟩ : V3) - 0) = 2
    rw [sub_zero, length_mk_x, abs_of_pos (by norm_num : (0 : ℝ) < 2)]
  have h1 : 0 < length ((⟨2, 0, 0⟩ : V3) - gridPair.pos 1) := by rw [hlen]; norm_num
  have h2 : length ((⟨2, 0, 0⟩ : V3) - gridPair.pos 1) < 25 := by rw [hlen]; norm_num
  exact ⟨h1, h2, (claimC3_amended gridPair ⟨2, 0, 0⟩ 25 120 accum0 1 h1 h2).1⟩

/-- Claim C8 as stated is false: the global-centroid-pull term
`normalize(myPos + vec3(0.0001))` is executed unconditionally for every agent,
and at the finite position `myPos = (-0.0001, -0.0001, -0.0001)` its argument
is the zero vector — a zero-length input reaching `normalize` (a NaN in GLSL
arithmetic).  All the other `normalize` call sites are guarded. -/
theorem claimC8_counterexample :
    length (centroidPullArg ⟨-0.0001, -0.0001, -0.0001⟩) = 0 := by
  have h : centroidPullArg ⟨-0.0001, -0.0001, -0.0001⟩ = 0 := by
    simp only [centroidPullArg, vec3]
    ext <;> simp <;> norm_num
  rw [h, length_zero]

/-- Claim C8, amended: for nonnegative `maxSpeed` and `boundaryRadius`, every
*guarded* `normalize` in the kernel is reached only with an argument of
positive length — the boundary branch (`|myPos| > 0.7 × boundaryRadius`), the
max-speed clamp (`speed > maxSpeed`) and the min-speed clamp (`speed <
0.2 × maxSpeed ∧ speed > 0.001`, whose argument is moreover untouched by the
max-speed clamp since both clamps cannot fire together) — while the unguarded
centroid-pull `normalize` receives a positive-length argument if and only if
`myPos ≠ (-0.0001, -0.0001, -0.0001)`; at that single finite position it
receives the zero vector. -/
theorem claimC8_amended (myPos v : V3) (M R : ℝ) (hM : 0 ≤ M) (hR : 0 ≤ R) :
    (R * 0.7 < length myPos → 0 < length myPos) ∧
    (M < length v → 0 < length v) ∧
    (length v < M * 0.2 ∧ 0.001 < length v → 0 < length v ∧ ¬M < length v) ∧
    (myPos ≠ ⟨-0.0001, -0.0001, -0.0001⟩ → 0 < length (centroidPullArg myPos)) := by
  refine ⟨fun h => lt_of_le_of_lt (by nlinarith) h,
          fun h => lt_of_le_of_lt hM h, ?_, ?_⟩
  · rintro ⟨hlt, hgt⟩
    refine ⟨lt_trans (by norm_num) hgt, fun hcon => ?_⟩
    linarith
  · intro hne
    have hz : centroidPullArg myPos ≠ 0 := by
      intro hc
      apply hne
      have h2 : myPos = -(vec3 0.0001) := eq_neg_of_add_eq_zero_left hc
      rw [h2]
      ext <;> simp [vec3]
    exact length_pos_of_ne hz

/-- Concrete instantiation of the amended C8: at the origin the centroid-pull
normalize argument has positive length. -/
theorem claimC8_amended_witness :
    (0 : ℝ) ≤ 0.5 ∧ (0 : ℝ) ≤ 1 ∧
    ((0 : V3) ≠ ⟨-0.0001, -0.0001, -0.0001⟩) ∧
    0 < length (centroidPullArg 0) := by
  have hne : (0 : V3) ≠ ⟨-0.0001, -0.0001, -0.0001⟩ := by
    intro h
    have hx := congrArg V3.x h
    simp at hx
    norm_num at hx
  exact ⟨by norm_num, by norm_num, hne,
    (claimC8_amended 0 ⟨1, 0, 0⟩ 0.5 1 (by norm_num) (by norm_num)).2.2.2 hne⟩

/-- The length of a spherical-coordinates vector `r · (sin φ cos θ, sin φ sin
θ, cos φ)` is `r` for `r ≥ 0`. -/
theorem length_spherical (r θ φ : ℝ) (hr : 0 ≤ r) :
    length ⟨r * Real.sin φ * Real.cos θ, r * Real.sin φ * Real.sin θ,
      r * Real.cos φ⟩ = r := by
  have hθ := Real.sin_sq_add_cos_sq θ
  have hφ := Real.sin_sq_add_cos_sq φ
  have hd : dot ⟨r * Real.sin φ * Real.cos θ, r * Real.sin φ * Real.sin θ,
        r * Real.cos φ⟩
      ⟨r * Real.sin φ * Real.cos θ, r * Real.sin φ * Real.sin θ,
        r * Real.cos φ⟩ = r ^ 2 := by
    simp only [dot, V3.mk_x, V3.mk_y, V3.mk_z]
    linear_combination (r ^ 2 * Real.sin φ ^ 2) * hθ + r ^ 2 * hφ
  rw [length, hd, Real.sqrt_sq hr]

/-- Claim C10: at initialization every agent's velocity has magnitude exactly
`0.3 × maxSpeed` (for any random draws and any `maxSpeed ≥ 0`), and every
agent's position lies within distance `0.6 × boundaryRadius` of the origin
(the random radius is `u1 × (0.6 × boundaryRadius)` with `u1 ∈ [0, 1)`). -/
theorem claimC10_initial_state (boundaryRadius maxSpeed u1 u2 u3 w1 w2 : ℝ)
    (hR : 0 ≤ boundaryRadius) (hM : 0 ≤ maxSpeed) (h0 : 0 ≤ u1) (h1 : u1 < 1) :
    length (fillVelocityEntry maxSpeed w1 w2) = maxSpeed * 0.3 ∧
    length (fillPositionEntry boundaryRadius u1 u2 u3) ≤ boundaryRadius * 0.6 := by
  constructor
  · simp only [fillVelocityEntry]
    exact length_spherical (maxSpeed * 0.3) _ _ (by nlinarith)
  · simp only [fillPositionEntry]
    rw [length_spherical (u1 * (boundaryRadius * 0.6)) _ _
      (mul_nonneg h0 (by nlinarith))]
    nlinarith

/-- Concrete instantiation of C10 at the panel defaults
(`boundaryRadius = 350`, `maxSpeed = 50`). -/
theorem claimC10_initial_state_witness :
    (0 : ℝ) ≤ 350 ∧ (0 : ℝ) ≤ 50 ∧ (0 : ℝ) ≤ 0.5 ∧ (0.5 : ℝ) < 1 ∧
    length (fillVelocityEntry 50 0.25 0.75) = 50 * 0.3 ∧
    length (fillPositionEntry 350 0.5 0.25 0.75) ≤ 350 * 0.6 := by
  obtain ⟨hv, hp⟩ := claimC10_initial_state 350 50 0.5 0.25 0.75 0.25 0.75
    (by norm_num) (by norm_num) (by norm_num) (by norm_num)
  exact ⟨by norm_num, by norm_num, by norm_num, by norm_num, hv, hp⟩

/-- Claim C7: the curl field is divergence-free — combining the central finite
differences of the scalar noise antisymmetrically as
`curl(p) = (∂y n − ∂z n, ∂z n − ∂x n, ∂x n − ∂y n)` yields a vector field
whose discretely estimated divergence (central differences with the same step)
is `0` at every sample point under exact arithmetic.  The mixed discrete
second differences commute, so the six terms cancel in pairs. -/
theorem claimC7_curl_divergence_free (p : V3) : discDiv curlNoise p = 0 := by
  simp only [discDiv, curlNoise]
  simp [V3.add_mk, V3.sub_mk]
  ring

end Boids
